import Mathlib

/-!
Shallow embedding of `src/docker_project/voip_server.py` (pjsua2-based VoIP
service).  Python dictionaries holding the DTMF menu become a tree type,
the `active_calls` dictionary becomes an association list, and the pjsua2
callbacks (`onIncomingCall`, `onCallState`, `onCallDtmfDigit`) become pure
step functions over a library state.  Event handlers registered in
`event_handlers` are opaque Python callables; they are modelled by their
observable effect at the dispatcher boundary: being invoked (recorded as an
emission action) and possibly raising an exception.
-/

namespace Voip

/-- A node of the DTMF menu dictionary from `config['dtmf_menu']`: a Python
dict mapping digit characters to child dicts, with an optional `'action'`
entry.  Actions are opaque callables, modelled as numeric labels recorded in
a fire trace. -/
inductive MenuNode where
  | node (action : Option Nat) (children : List (Char × MenuNode))

/-- The empty dict `{}` that `current.get(d, {})` falls back to. -/
def emptyNode : MenuNode := .node none []

/-- The `action` entry of a node. -/
def MenuNode.action : MenuNode → Option Nat
  | .node a _ => a

/-- The digit-to-child entries of a node. -/
def MenuNode.children : MenuNode → List (Char × MenuNode)
  | .node _ c => c

/-- Dict lookup among a node's children, first matching key. -/
def childLookup : List (Char × MenuNode) → Char → Option MenuNode
  | [], _ => none
  | (k, n) :: rest, d => if k = d then some n else childLookup rest d

/-- Whether digit `d` is a key of the children dict (`d in current`). -/
def hasKey (cs : List (Char × MenuNode)) (d : Char) : Bool :=
  (childLookup cs d).isSome

/-- `current.get(d, {})`: step to the child for `d`, or the empty dict. -/
def stepNode (n : MenuNode) (d : Char) : MenuNode :=
  (childLookup n.children d).getD emptyNode

/-- Walk the menu from node `n` along a digit list (the `for d in
self.dtmf_buffer` traversal of `CallSession.handle_dtmf`). -/
def walkNode (n : MenuNode) : List Char → MenuNode
  | [] => n
  | d :: ds => walkNode (stepNode n d) ds

/-- The actions fired while walking digits `ds` from `n`: after each step the
loop body checks `'action' in current` and calls it. -/
def collectFires (n : MenuNode) : List Char → List Nat
  | [] => []
  | d :: ds =>
    let n' := stepNode n d
    match n'.action with
    | some a => a :: collectFires n' ds
    | none => collectFires n' ds

/-- Per-call configuration dict passed to `CallSession.__init__`:
`config.get('record', True)` and `config.get('dtmf_menu')`. -/
structure SessionConfig where
  record : Bool := true
  dtmf_menu : Option MenuNode := none

/-- State of one `CallSession` object.  pjsua2 resource objects
(`recorder`, `player`, `audio_med`) are modelled by whether the attribute
is non-`None`; the generated `recording_{timestamp}.wav` file name is
abstracted to its integer timestamp. -/
structure CallSession where
  record : Bool
  menu : Option MenuNode
  hasRecorder : Bool
  hasPlayer : Bool
  hasAudioMed : Bool
  recTransmitting : Bool
  dtmf_buffer : List Char
  recording_file : Option Nat

/-- `CallSession.__init__` followed by `_init_recording`: a recorder and a
recording file exist exactly when `config.get('record', True)` is truthy. -/
def CallSession.init (cfg : SessionConfig) (ts : Nat) : CallSession :=
  { record := cfg.record
    menu := cfg.dtmf_menu
    hasRecorder := cfg.record
    hasPlayer := false
    hasAudioMed := false
    recTransmitting := false
    dtmf_buffer := []
    recording_file := if cfg.record then some ts else none }

/-- `CallSession.play_audio`: if a player exists it first calls
`stopTransmit(self.audio_med)`, then unconditionally builds a new player and
calls `startTransmit(self.audio_med)`.  Passing `None` (no attached media)
to either pjsua2 call raises; the returned Bool is `true` when an exception
escapes.  Note the player attribute is reassigned before the failing
`startTransmit`. -/
def CallSession.play_audio (s : CallSession) : CallSession × Bool :=
  if s.hasPlayer && !s.hasAudioMed then (s, true)
  else
    let s' := { s with hasPlayer := true }
    if s.hasAudioMed then (s', false) else (s', true)

/-- `CallSession.start_recording`: guarded by
`if self.recorder and self.audio_med`, otherwise silently does nothing. -/
def CallSession.start_recording (s : CallSession) : CallSession × Bool :=
  if s.hasRecorder && s.hasAudioMed then ({ s with recTransmitting := true }, false)
  else (s, false)

/-- `CallSession.stop_recording`: stops the transmission and returns the
recording file name when both recorder and media exist, else `None`. -/
def CallSession.stop_recording (s : CallSession) : CallSession × Option Nat :=
  if s.hasRecorder && s.hasAudioMed then
    ({ s with recTransmitting := false }, s.recording_file)
  else (s, none)

/-- `CallSession.handle_dtmf`: append the digit to `dtmf_buffer`, then, when
a menu is configured, re-walk the whole buffer from the menu root; every
step landing on a node with an `'action'` key fires it and rebinds
`self.dtmf_buffer` to a fresh empty list (the loop keeps iterating over the
original list).  Returns the updated session and the labels fired. -/
def CallSession.handle_dtmf (s : CallSession) (digit : Char) : CallSession × List Nat :=
  let buf := s.dtmf_buffer ++ [digit]
  match s.menu with
  | none => ({ s with dtmf_buffer := buf }, [])
  | some m =>
    let fires := collectFires m buf
    ({ s with dtmf_buffer := if fires.isEmpty then buf else [] }, fires)

/-- Feed a list of digits to `handle_dtmf` one at a time, concatenating the
fire traces. -/
def runDtmf (s : CallSession) : List Char → CallSession × List Nat
  | [] => (s, [])
  | d :: ds =>
    let o := s.handle_dtmf d
    let r := runDtmf o.1 ds
    (r.1, o.2 ++ r.2)

/-! ### The `active_calls` dictionary -/

/-- Lookup in the `active_calls` dict (`self.active_calls.get(id)`). -/
def dictLookup : List (Nat × CallSession) → Nat → Option CallSession
  | [], _ => none
  | (k, v) :: rest, id => if k = id then some v else dictLookup rest id

/-- Dict assignment `self.active_calls[id] = session`: replaces the binding
when the key is present, otherwise appends it.  No duplicate check. -/
def dictInsert : List (Nat × CallSession) → Nat → CallSession → List (Nat × CallSession)
  | [], id, s => [(id, s)]
  | (k, v) :: rest, id, s =>
    if k = id then (k, s) :: rest else (k, v) :: dictInsert rest id s

/-- Deletion `del self.active_calls[id]`.  A Python dict never holds a
duplicate key, so removing every binding for `id` makes states with
duplicate keys behave like their dict quotient. -/
def dictRemove : List (Nat × CallSession) → Nat → List (Nat × CallSession)
  | [], _ => []
  | (k, v) :: rest, id =>
    if k = id then dictRemove rest id else (k, v) :: dictRemove rest id

/-! ### Event handlers and the dispatcher state -/

/-- An externally registered handler in `self.event_handlers`, modelled by
whether invoking it raises an exception. -/
structure HandlerSpec where
  raises : Bool

/-- The fixed slots of `self.event_handlers` (each is `None` or a handler). -/
structure Handlers where
  incoming_call : Option HandlerSpec
  incoming_message : Option HandlerSpec
  call_connected : Option HandlerSpec
  call_ended : Option HandlerSpec
  dtmf_received : Option HandlerSpec

/-- The mutable state of a `VoIPLibrary` object relevant to call events. -/
structure LibState where
  active_calls : List (Nat × CallSession)
  handlers : Handlers

/-- Observable primitive actions performed inside the dispatcher callbacks:
handler invocations, registry mutations, and menu-action fires. -/
inductive Action where
  | emit_incoming_call (callId : Nat)
  | emit_call_connected (callId : Nat)
  | emit_call_ended (callId : Nat) (recordingFile : Option Nat)
  | emit_dtmf (digit : Char)
  | fired (label : Nat)
  | registerSession (callId : Nat)
  | removeFromRegistry (callId : Nat)
  | stopPlayback (callId : Nat)
  | stopRecordingAct (callId : Nat)
  | finalizeRecording (callId : Nat)
  | enqueueJob (recordingFile : Nat)
deriving DecidableEq

/-- `pjsua2` call-state parameters observed by `Call.onCallState`:
whether `prm.e.body.type == PJSIP_EVENT_RX_MSG`, the rx-message method, and
whether `self.getInfo().state == PJSIP_INV_STATE_CONFIRMED`. -/
structure CallStateParm where
  isRxMsg : Bool
  method : String
  confirmed : Bool
deriving DecidableEq

/-- `VoIPLibrary.onIncomingCall`: build a fresh session with config `{}`
(so recording defaults on), register it under the call id by dict
assignment, then invoke the `incoming_call` handler if one is registered.
Returns the new `active_calls`, the dispatcher actions, and whether a
handler exception escaped the callback. -/
def onIncomingCall (st : LibState) (callId ts : Nat) :
    List (Nat × CallSession) × List Action × Bool :=
  let s := CallSession.init {} ts
  let ac := dictInsert st.active_calls callId s
  match st.handlers.incoming_call with
  | some h => (ac, [.registerSession callId, .emit_incoming_call callId], h.raises)
  | none => (ac, [.registerSession callId], false)

/-- `VoIPLibrary.Call.onCallState`: look the session up; on a received
`BYE` with a live session, invoke the `call_ended` handler (if any) and
then delete the session from `active_calls`; on a confirmed-state change
with a live session, invoke `call_connected`.  A handler exception escapes
the callback and skips the statements after the handler call. -/
def onCallState (st : LibState) (callId : Nat) (p : CallStateParm) :
    List (Nat × CallSession) × List Action × Bool :=
  match dictLookup st.active_calls callId with
  | some s =>
    if p.isRxMsg then
      if p.method = "BYE" then
        match st.handlers.call_ended with
        | some h =>
          if h.raises then
            (st.active_calls, [.emit_call_ended callId s.recording_file], true)
          else
            (dictRemove st.active_calls callId,
             [.emit_call_ended callId s.recording_file, .removeFromRegistry callId], false)
        | none =>
          (dictRemove st.active_calls callId, [.removeFromRegistry callId], false)
      else (st.active_calls, [], false)
    else if p.confirmed then
      match st.handlers.call_connected with
      | some h => (st.active_calls, [.emit_call_connected callId], h.raises)
      | none => (st.active_calls, [], false)
    else (st.active_calls, [], false)
  | none => (st.active_calls, [], false)

/-- `VoIPLibrary.Call.onCallDtmfDigit`: only when the session is found and a
`dtmf_received` handler is registered, run `session.handle_dtmf(digit)` and
then invoke the handler; otherwise the digit is dropped. -/
def onCallDtmfDigit (st : LibState) (callId : Nat) (d : Char) :
    List (Nat × CallSession) × List Action × Bool :=
  match dictLookup st.active_calls callId with
  | some s =>
    match st.handlers.dtmf_received with
    | some h =>
      let o := s.handle_dtmf d
      (dictInsert st.active_calls callId o.1,
       o.2.map Action.fired ++ [.emit_dtmf d], h.raises)
    | none => (st.active_calls, [], false)
  | none => (st.active_calls, [], false)

/-- Events delivered by the pjsua2 stack to the dispatcher callbacks.  An
`incoming` event carries the timestamp used for the generated recording
file name. -/
inductive StackEvent where
  | incoming (callId ts : Nat)
  | callState (callId : Nat) (p : CallStateParm)
  | dtmf (callId : Nat) (d : Char)
deriving DecidableEq

/-- Dispatch one stack event to the matching callback.  The `handlers`
slots are only ever written from outside the dispatcher, so the state keeps
them unchanged. -/
def stepEv (st : LibState) (e : StackEvent) : LibState × List Action × Bool :=
  let o := match e with
    | .incoming callId ts => onIncomingCall st callId ts
    | .callState callId p => onCallState st callId p
    | .dtmf callId d => onCallDtmfDigit st callId d
  ({ active_calls := o.1, handlers := st.handlers }, o.2.1, o.2.2)

/-- Deliver a sequence of stack events, concatenating the action traces. -/
def run (st : LibState) : List StackEvent → LibState × List Action
  | [] => (st, [])
  | e :: es =>
    let o := stepEv st e
    let r := run o.1 es
    (r.1, o.2.1 ++ r.2)

/-- Count of registration events for a given call id. -/
def isIncomingFor (id : Nat) : StackEvent → Bool
  | .incoming i _ => i == id
  | _ => false

/-- Recognizer for `call_ended` emissions for a given call id. -/
def isEndedFor (id : Nat) : Action → Bool
  | .emit_call_ended i _ => i == id
  | _ => false

/-- Whether the registered `call_ended` handler (if any) is non-raising. -/
def callEndedSafe (hs : Handlers) : Bool :=
  match hs.call_ended with
  | some h => ! h.raises
  | none => true

/-! ### Phone-number normalization (`_format_phone_number`, `place_call`,
`send_message`) -/

/-- One pass of `re.sub(r'(?!^\+)\D', '', number)`: a non-digit character is
removed unless it is a `+` standing at position 0 of the string.  `i` is the
current position. -/
def reSubNonDigit (i : Nat) : List Char → List Char
  | [] => []
  | c :: rest =>
    (if !c.isDigit && !(i == 0 && c == '+') then [] else [c]) ++ reSubNonDigit (i + 1) rest

/-- The cleaned number produced by the regex substitution. -/
def cleanNumber (s : List Char) : List Char := reSubNonDigit 0 s

/-- `registrar.split("@")[-1]`: the text after the last `@` (the whole
string when there is no `@`). -/
def afterLastAt (l : List Char) : List Char :=
  (l.reverse.takeWhile (fun c => c ≠ '@')).reverse

/-- `.split(":")[0]`: the text before the first `:` (the whole string when
there is no `:`). -/
def beforeFirstColon (l : List Char) : List Char :=
  l.takeWhile (fun c => c ≠ ':')

/-- The characters of the literal `"sip:"` scheme marker. -/
def sipScheme : List Char := ['s', 'i', 'p', ':']

/-- `VoIPLibrary._format_phone_number`: clean the number, derive the domain
from the registrar by `registrar.split("@")[-1].split(":")[0]`, and build
`f"sip:{cleaned}@{domain}"`.  Strings are modelled as character lists. -/
def _format_phone_number (number registrar : List Char) : List Char :=
  sipScheme ++ cleanNumber number ++ ['@'] ++ beforeFirstColon (afterLastAt registrar)

/-- `number.startswith("sip:")`. -/
def pyStartsWith (s pre : List Char) : Bool :=
  pre = s.take pre.length

/-- The address actually dialled or messaged: both `place_call` and
`send_message` pass the number through `_format_phone_number` exactly when
it does not already start with `"sip:"`. -/
def call_target (number registrar : List Char) : List Char :=
  if pyStartsWith number sipScheme then number else _format_phone_number number registrar

/-- `VoIPLibrary.place_call`: normalize the target, attempt `makeCall`
(its success is an external-stack input), and only on success construct a
session and register it by dict assignment.  On failure the exception is
logged and re-raised with nothing registered.  Returns the new
`active_calls` and the dialled address. -/
def place_call (st : LibState) (number registrar : List Char) (cfg : SessionConfig)
    (newCallId ts : Nat) (makeCallOk : Bool) :
    Except String (List (Nat × CallSession) × List Char) :=
  let addr := call_target number registrar
  if makeCallOk then
    .ok (dictInsert st.active_calls newCallId (CallSession.init cfg ts), addr)
  else .error "Call failed"

/-- `VoIPLibrary.send_message`: normalize the target and hand it with the
text to `sendInstantMessage`; returns the pair passed to the stack. -/
def send_message (number registrar : List Char) (text : String) : List Char × String :=
  (call_target number registrar, text)

/-! ### Concrete inputs used by witnesses and counterexamples -/

/-- The spec's example menu `{"9": {"1": {action: X}}}`, with `X` labelled
`0`. -/
def exMenu : MenuNode :=
  .node none [('9', .node none [('1', .node (some 0) [])])]

/-- A fresh session configured with `exMenu`. -/
def exSession : CallSession :=
  CallSession.init { record := true, dtmf_menu := some exMenu } 0

/-- A fresh session built with an empty config (recording on, no menu),
as `onIncomingCall` does. -/
def idleSession : CallSession := CallSession.init {} 7

/-- A registered session marked by a distinctive DTMF buffer, used to show
that re-registration discards it. -/
def oldSession : CallSession := { CallSession.init {} 3 with dtmf_buffer := ['8'] }

/-- Handlers with a non-raising `call_ended` handler registered. -/
def safeHandlers : Handlers :=
  { incoming_call := some ⟨false⟩
    incoming_message := none
    call_connected := none
    call_ended := some ⟨false⟩
    dtmf_received := none }

/-- Handlers whose `call_ended` handler raises. -/
def raisingHandlers : Handlers :=
  { safeHandlers with call_ended := some ⟨true⟩ }

/-- A library state with one live session (id 1) and safe handlers. -/
def oneCallState : LibState :=
  { active_calls := [(1, idleSession)], handlers := safeHandlers }

/-- The same live session but with a raising `call_ended` handler. -/
def oneCallRaisingState : LibState :=
  { active_calls := [(1, idleSession)], handlers := raisingHandlers }

/-- An initially empty registry with safe handlers. -/
def emptyState : LibState := { active_calls := [], handlers := safeHandlers }

/-- An initially empty registry whose `call_ended` handler raises. -/
def emptyRaisingState : LibState :=
  { active_calls := [], handlers := raisingHandlers }

/-- A state in which id 1 is already registered, for replaying a duplicate
registration. -/
def dupState : LibState :=
  { active_calls := [(1, oldSession)], handlers := safeHandlers }

/-- A state with two live sessions. -/
def twoCallState : LibState :=
  { active_calls := [(1, oldSession), (2, idleSession)], handlers := safeHandlers }

/-- A state with the menu-equipped session registered and a `dtmf_received`
handler installed. -/
def dtmfState : LibState :=
  { active_calls := [(1, exSession)]
    handlers := { safeHandlers with dtmf_received := some ⟨false⟩ } }

/-- Modelled from the spec: the action sequence that §4.2 of the design
prescribes on entering `Disconnected` — stop playback, then stop recording,
finalize the file, remove the session from the registry, emit `call_ended`
with the finalized recording path, and enqueue a transcription job.  Stated
only to be compared with the trace the code actually produces. -/
def specDisconnectTrace (callId recFile : Nat) : List Action :=
  [.stopPlayback callId, .stopRecordingAct callId, .finalizeRecording callId,
   .removeFromRegistry callId, .emit_call_ended callId (some recFile),
   .enqueueJob recFile]

/-! ### Lemmas about menu traversal -/

theorem walkNode_append (u v : List Char) : ∀ n : MenuNode,
    walkNode n (u ++ v) = walkNode (walkNode n u) v := by
  induction u with
  | nil => intro n; rfl
  | cons d ds ih => intro n; simpa [walkNode] using ih (stepNode n d)

theorem collectFires_append (u v : List Char) : ∀ n : MenuNode,
    collectFires n (u ++ v) = collectFires n u ++ collectFires (walkNode n u) v := by
  induction u with
  | nil => intro n; rfl
  | cons d ds ih =>
    intro n
    simp only [List.cons_append, collectFires, walkNode]
    cases (stepNode n d).action <;> simp [ih]

theorem collectFires_concat (n : MenuNode) (u : List Char) (d : Char) :
    collectFires n (u ++ [d]) =
      collectFires n u ++ (walkNode n (u ++ [d])).action.toList := by
  rw [collectFires_append, walkNode_append]
  cases h : (walkNode (walkNode n u) [d]).action <;>
    simp_all [collectFires, walkNode, Option.toList]

theorem stepNode_empty (d : Char) : stepNode emptyNode d = emptyNode := rfl

theorem walkNode_empty (v : List Char) : walkNode emptyNode v = emptyNode := by
  induction v with
  | nil => rfl
  | cons d ds ih => simpa [walkNode, stepNode_empty] using ih

theorem collectFires_empty (v : List Char) : collectFires emptyNode v = [] := by
  induction v with
  | nil => rfl
  | cons d ds ih => simpa [collectFires, stepNode_empty, emptyNode, MenuNode.action] using ih

theorem collectFires_eq_nil (v : List Char) : ∀ n : MenuNode,
    (∀ i, 0 < i → i ≤ v.length → (walkNode n (v.take i)).action = none) →
    collectFires n v = [] := by
  induction v with
  | nil => intro n _; rfl
  | cons d ds ih =>
    intro n h
    have h1 : (stepNode n d).action = none := by
      have := h 1 (by omega) (by simp)
      simpa [walkNode] using this
    simp only [collectFires, h1]
    exact ih (stepNode n d) (fun i hi hle => by
      have := h (i + 1) (by omega) (by simpa using Nat.succ_le_succ hle)
      simpa [List.take_succ_cons, walkNode] using this)

theorem runDtmf_no_action (m : MenuNode) : ∀ (v u : List Char) (s : CallSession),
    s.menu = some m → s.dtmf_buffer = u →
    (∀ i, 0 < i → i ≤ (u ++ v).length → (walkNode m ((u ++ v).take i)).action = none) →
    runDtmf s v = ({ s with dtmf_buffer := u ++ v }, []) := by
  intro v
  induction v with
  | nil =>
    intro u s hm hb _
    simp [runDtmf, ← hb]
  | cons d ds ih =>
    intro u s hm hb h
    have hfires : collectFires m (u ++ [d]) = [] := by
      refine collectFires_eq_nil (u ++ [d]) m (fun i hi hle => ?_)
      have hle' : i ≤ (u ++ d :: ds).length := by
        simp only [List.length_append, List.length_cons, List.length_nil] at hle ⊢
        omega
      have htake : (u ++ d :: ds).take i = (u ++ [d]).take i := by
        have : u ++ d :: ds = (u ++ [d]) ++ ds := by simp
        rw [this, List.take_append_of_le_length (by simpa using hle)]
      have := h i hi hle'
      rwa [htake] at this
    have hstep : s.handle_dtmf d = ({ s with dtmf_buffer := u ++ [d] }, []) := by
      simp [CallSession.handle_dtmf, hm, hb, hfires]
    have := ih (u ++ [d]) ({ s with dtmf_buffer := u ++ [d] }) hm rfl
      (fun i hi hle => by
        have : (u ++ [d]) ++ ds = u ++ d :: ds := by simp
        rw [this] at hle ⊢
        exact h i hi hle)
    simp only [runDtmf, hstep, this]
    simp

theorem runDtmf_stuck (m : MenuNode) : ∀ (ds : List Char) (s : CallSession),
    s.menu = some m →
    walkNode m s.dtmf_buffer = emptyNode →
    collectFires m s.dtmf_buffer = [] →
    runDtmf s ds = ({ s with dtmf_buffer := s.dtmf_buffer ++ ds }, []) := by
  intro ds
  induction ds with
  | nil => intro s _ _ _; simp [runDtmf]
  | cons d ds ih =>
    intro s hm hw hc
    have hfires : collectFires m (s.dtmf_buffer ++ [d]) = [] := by
      simp [collectFires_append, hc, hw, collectFires_empty]
    have hstep : s.handle_dtmf d = ({ s with dtmf_buffer := s.dtmf_buffer ++ [d] }, []) := by
      simp [CallSession.handle_dtmf, hm, hfires]
    have hrec := ih ({ s with dtmf_buffer := s.dtmf_buffer ++ [d] }) hm
      (by rw [walkNode_append, hw, walkNode_empty]) hfires
    simp [runDtmf, hstep, hrec]

theorem runDtmf_append (u v : List Char) : ∀ s : CallSession,
    runDtmf s (u ++ v) =
      ((runDtmf (runDtmf s u).1 v).1,
        (runDtmf s u).2 ++ (runDtmf (runDtmf s u).1 v).2) := by
  induction u with
  | nil => intro s; simp [runDtmf]
  | cons d ds ih =>
    intro s
    simp [runDtmf, ih (s.handle_dtmf d).1]

/-! ### C3: unmatched DTMF digit -/

/-- C3, counterexample: in menu `{"9":{"1":{action: X}}}`, after digits `9`
then `2` the code leaves the digit buffer as `['9','2']` — it is NOT reset
to empty as the claim states — although no action fired and no error was
raised. -/
theorem c3_invalid_digit_counterexample :
    (runDtmf exSession ['9', '2']).1.dtmf_buffer = ['9', '2'] ∧
    (runDtmf exSession ['9', '2']).1.dtmf_buffer ≠ [] ∧
    (runDtmf exSession ['9', '2']).2 = [] := by
  refine ⟨rfl, ?_, rfl⟩
  decide

/-- C3, amended: a digit with no corresponding child at the current node
(reached by re-walking the buffer, none of whose prefixes fires) raises no
error and fires no action, but the buffer is NOT reset: the invalid digit
is appended and retained, and from then on no digit sequence can ever fire
an action (the walk is absorbed by the empty node). -/
theorem c3_unmatched_digit_keeps_buffer (s : CallSession) (m : MenuNode) (d : Char)
    (hm : s.menu = some m)
    (hmiss : hasKey (walkNode m s.dtmf_buffer).children d = false)
    (hnof : collectFires m s.dtmf_buffer = []) :
    s.handle_dtmf d = ({ s with dtmf_buffer := s.dtmf_buffer ++ [d] }, []) ∧
    ∀ ds, (runDtmf { s with dtmf_buffer := s.dtmf_buffer ++ [d] } ds).2 = [] := by
  have hstepE : stepNode (walkNode m s.dtmf_buffer) d = emptyNode := by
    unfold hasKey at hmiss
    unfold stepNode
    cases hcl : childLookup (walkNode m s.dtmf_buffer).children d with
    | none => rfl
    | some n => rw [hcl] at hmiss; simp at hmiss
  have hwalk : walkNode m (s.dtmf_buffer ++ [d]) = emptyNode := by
    rw [walkNode_append]
    simpa [walkNode] using hstepE
  have hfires : collectFires m (s.dtmf_buffer ++ [d]) = [] := by
    rw [collectFires_concat, hnof, hwalk]
    rfl
  refine ⟨by simp [CallSession.handle_dtmf, hm, hfires], fun ds => ?_⟩
  rw [runDtmf_stuck m ds _ (by simpa using hm) (by simpa using hwalk)
    (by simpa using hfires)]

/-- C3, witness for the amended claim at the spec's example: buffer `['9']`,
digit `2`. -/
theorem c3_unmatched_digit_keeps_buffer_witness :
    CallSession.handle_dtmf { exSession with dtmf_buffer := ['9'] } '2'
      = ({ exSession with dtmf_buffer := ['9', '2'] }, []) ∧
    (runDtmf { exSession with dtmf_buffer := ['9', '2'] } ['1', '5']).2 = [] := by
  have h := c3_unmatched_digit_keeps_buffer { exSession with dtmf_buffer := ['9'] }
    exMenu '2' rfl (by decide) rfl
  exact ⟨h.1, h.2 ['1', '5']⟩

/-! ### C4: a terminal action fires exactly once -/

/-- C4: for every menu tree and digit sequence whose traversal from the
root reaches a node carrying a terminal action (no shorter non-empty
prefix fires, which is what lets the traversal arrive there), feeding the
digits to `handle_dtmf` from a clean session fires the action exactly once,
on the final digit, and afterwards the buffer is empty (the cursor is
re-derived from the buffer, so an empty buffer is exactly the root
cursor). -/
theorem c4_terminal_action_fires_once (m : MenuNode) (p : List Char) (d : Char)
    (a : Nat) (s : CallSession) (hm : s.menu = some m) (hb : s.dtmf_buffer = [])
    (hact : (walkNode m (p ++ [d])).action = some a)
    (hpre : ∀ i, 0 < i → i < (p ++ [d]).length →
      (walkNode m ((p ++ [d]).take i)).action = none) :
    (runDtmf s (p ++ [d])).2 = [a] ∧
    (runDtmf s (p ++ [d])).1.dtmf_buffer = [] ∧
    (runDtmf s p).2 = [] := by
  have hpref : ∀ i, 0 < i → i ≤ p.length → (walkNode m (p.take i)).action = none := by
    intro i hi hle
    have h2 : i < (p ++ [d]).length := by
      simp only [List.length_append, List.length_cons, List.length_nil]
      omega
    have := hpre i hi h2
    rwa [List.take_append_of_le_length hle] at this
  have hrun_p : runDtmf s p = ({ s with dtmf_buffer := p }, []) := by
    have := runDtmf_no_action m p [] s hm (by simpa using hb)
      (fun i hi hle => by simpa using hpref i hi (by simpa using hle))
    simpa using this
  have hcf : collectFires m (p ++ [d]) = [a] := by
    rw [collectFires_concat, collectFires_eq_nil p m hpref, hact]
    rfl
  have hlast : CallSession.handle_dtmf { s with dtmf_buffer := p } d
      = ({ s with dtmf_buffer := [] }, [a]) := by
    simp [CallSession.handle_dtmf, hm, hcf]
  rw [runDtmf_append, hrun_p]
  simp [runDtmf, hlast]

/-- C4, witness at the spec's example menu: digits `9, 1` fire `X` exactly
once, leave the buffer empty, and digit `9` alone fires nothing. -/
theorem c4_terminal_action_fires_once_witness :
    (runDtmf exSession (['9'] ++ ['1'])).2 = [0] ∧
    (runDtmf exSession (['9'] ++ ['1'])).1.dtmf_buffer = [] ∧
    (runDtmf exSession ['9']).2 = [] := by
  refine c4_terminal_action_fires_once exMenu ['9'] '1' 0 exSession rfl rfl rfl ?_
  intro i h1 h2
  simp only [List.length_append, List.length_cons, List.length_nil] at h2
  interval_cases i
  decide

/-! ### Lemmas about the `active_calls` dictionary -/

theorem dictLookup_insert_self (m : List (Nat × CallSession)) (id : Nat) (s : CallSession) :
    dictLookup (dictInsert m id s) id = some s := by
  induction m with
  | nil => simp [dictInsert, dictLookup]
  | cons p rest ih =>
    obtain ⟨k, v⟩ := p
    by_cases h : k = id <;> simp [dictInsert, dictLookup, h, ih]

theorem dictLookup_insert_ne (m : List (Nat × CallSession)) (id j : Nat) (s : CallSession)
    (h : j ≠ id) : dictLookup (dictInsert m id s) j = dictLookup m j := by
  induction m with
  | nil =>
    have hne : ¬ id = j := by omega
    simp [dictInsert, dictLookup, hne]
  | cons p rest ih =>
    obtain ⟨k, v⟩ := p
    by_cases hk : k = id
    · subst hk
      have hne : ¬ k = j := by omega
      simp [dictInsert, dictLookup, hne]
    · simp [dictInsert, dictLookup, hk, ih]

theorem dictLookup_remove_self (m : List (Nat × CallSession)) (id : Nat) :
    dictLookup (dictRemove m id) id = none := by
  induction m with
  | nil => simp [dictRemove, dictLookup]
  | cons p rest ih =>
    obtain ⟨k, v⟩ := p
    by_cases h : k = id <;> simp [dictRemove, dictLookup, h, ih]

theorem dictLookup_remove_ne (m : List (Nat × CallSession)) (id j : Nat)
    (h : j ≠ id) : dictLookup (dictRemove m id) j = dictLookup m j := by
  induction m with
  | nil => simp [dictRemove, dictLookup]
  | cons p rest ih =>
    obtain ⟨k, v⟩ := p
    by_cases hk : k = id
    · subst hk
      have hne : ¬ k = j := by omega
      simp [dictRemove, dictLookup, hne, ih]
    · simp [dictRemove, dictLookup, hk, ih]

theorem mem_keys_dictInsert (m : List (Nat × CallSession)) (id : Nat) (s : CallSession)
    (j : Nat) :
    (j ∈ (dictInsert m id s).map Prod.fst) ↔ j ∈ m.map Prod.fst ∨ j = id := by
  induction m with
  | nil => simp [dictInsert]
  | cons p rest ih =>
    obtain ⟨k, v⟩ := p
    by_cases hk : k = id
    · subst hk
      have hred : dictInsert ((k, v) :: rest) k s = (k, s) :: rest := by
        simp [dictInsert]
      rw [hred]
      simp only [List.map_cons, List.mem_cons]
      tauto
    · have hred : dictInsert ((k, v) :: rest) id s = (k, v) :: dictInsert rest id s := by
        simp [dictInsert, hk]
      rw [hred]
      simp only [List.map_cons, List.mem_cons, ih]
      tauto

theorem mem_keys_dictInsert_self (m : List (Nat × CallSession)) (id : Nat)
    (s : CallSession) : id ∈ (dictInsert m id s).map Prod.fst := by
  rw [mem_keys_dictInsert]
  exact Or.inr rfl

theorem dictInsert_keys_nodup (m : List (Nat × CallSession)) (id : Nat) (s : CallSession)
    (h : (m.map Prod.fst).Nodup) : ((dictInsert m id s).map Prod.fst).Nodup := by
  induction m with
  | nil => simp [dictInsert]
  | cons p rest ih =>
    obtain ⟨k, v⟩ := p
    simp only [List.map_cons, List.nodup_cons] at h
    by_cases hk : k = id
    · subst hk
      simpa [dictInsert, List.nodup_cons] using h
    · simp only [dictInsert, if_neg hk, List.map_cons, List.nodup_cons]
      refine ⟨?_, ih h.2⟩
      rw [mem_keys_dictInsert]
      rintro (hmem | rfl)
      · exact h.1 hmem
      · exact hk rfl

/-! ### C5: duplicate registration -/

/-- C5, counterexample: with id 1 already registered (`oldSession`), the
incoming-call registration `self.active_calls[id] = session` silently
replaces the existing session — no `DuplicateSessionError` is raised (the
code has no such error channel; the callback completes normally) and the
existing session is not left in place. -/
theorem c5_duplicate_registration_counterexample :
    (onIncomingCall dupState 1 9).1 = [(1, CallSession.init {} 9)] ∧
    dictLookup (onIncomingCall dupState 1 9).1 1 ≠ some oldSession ∧
    (onIncomingCall dupState 1 9).2.2 = false := by
  refine ⟨rfl, ?_, rfl⟩
  intro h
  have h2 := congrArg (fun o => o.map CallSession.recording_file) h
  have h3 : (some (some 9) : Option (Option Nat)) = some (some 3) := h2
  exact absurd h3 (by decide)

/-- C5, amended: registering under an already-present identifier does not
fail — the dict assignment silently overwrites the existing session, the
new session is the one subsequently found, other identifiers are
untouched, and the registry still holds at most one session per identifier
(unique keys are preserved). -/
theorem c5_registration_overwrites (st : LibState) (id ts : Nat) :
    (onIncomingCall st id ts).1 = dictInsert st.active_calls id (CallSession.init {} ts) ∧
    dictLookup (onIncomingCall st id ts).1 id = some (CallSession.init {} ts) ∧
    (∀ j, j ≠ id →
      dictLookup (onIncomingCall st id ts).1 j = dictLookup st.active_calls j) ∧
    ((st.active_calls.map Prod.fst).Nodup →
      ((onIncomingCall st id ts).1.map Prod.fst).Nodup) := by
  have hac : (onIncomingCall st id ts).1
      = dictInsert st.active_calls id (CallSession.init {} ts) := by
    unfold onIncomingCall
    cases st.handlers.incoming_call <;> rfl
  refine ⟨hac, ?_, ?_, ?_⟩
  · rw [hac, dictLookup_insert_self]
  · intro j hj
    rw [hac, dictLookup_insert_ne _ _ _ _ hj]
  · intro h
    rw [hac]
    exact dictInsert_keys_nodup _ _ _ h

/-- C5, witness for the amended claim: re-registering id 1 replaces
`oldSession`, leaves id 2 alone, and keeps the key set duplicate-free. -/
theorem c5_registration_overwrites_witness :
    dictLookup (onIncomingCall twoCallState 1 9).1 1 = some (CallSession.init {} 9) ∧
    dictLookup (onIncomingCall twoCallState 1 9).1 2 = some idleSession ∧
    ((onIncomingCall twoCallState 1 9).1.map Prod.fst).Nodup := by
  have h := c5_registration_overwrites twoCallState 1 9
  refine ⟨h.2.1, ?_, h.2.2.2 (by decide)⟩
  rw [h.2.2.1 2 (by decide)]
  rfl

/-! ### C6: media operations outside the active window -/

/-- C6, counterexample: on a session with no attached media handle (not
`Active`), `play_audio` is not a no-op: it reassigns the player attribute
and then raises from `startTransmit(None)`, so an exception escapes and
the session is changed. -/
theorem c6_media_noop_counterexample :
    idleSession.hasAudioMed = false ∧
    idleSession.play_audio.2 = true ∧
    idleSession.play_audio.1 ≠ idleSession := by
  refine ⟨rfl, rfl, ?_⟩
  intro h
  have h2 := congrArg CallSession.hasPlayer h
  have h3 : true = false := h2
  exact absurd h3 (by decide)

/-- C6, amended: `start_recording` outside the active window (no recorder
or no media handle) is a silent no-op that changes nothing and raises
nothing; `play_audio`, however, is unguarded — with no attached media
handle it always lets an exception escape, and when no player existed yet
it has already reassigned the player attribute before raising. -/
theorem c6_media_ops_outside_active (s : CallSession) :
    ((s.hasRecorder && s.hasAudioMed) = false → s.start_recording = (s, false)) ∧
    (s.hasAudioMed = false → s.play_audio.2 = true) ∧
    (s.hasAudioMed = false → s.hasPlayer = false →
      s.play_audio = ({ s with hasPlayer := true }, true)) := by
  refine ⟨fun h => ?_, fun h => ?_, fun h hp => ?_⟩
  · simp [CallSession.start_recording, h]
  · cases hpl : s.hasPlayer <;> simp [CallSession.play_audio, h, hpl]
  · simp [CallSession.play_audio, h, hp]

/-- C6, witness: the fresh `idleSession` (recorder on, no media attached):
`start_recording` leaves it unchanged without error, `play_audio` raises. -/
theorem c6_media_ops_outside_active_witness :
    idleSession.start_recording = (idleSession, false) ∧
    idleSession.play_audio.2 = true ∧
    idleSession.play_audio = ({ idleSession with hasPlayer := true }, true) := by
  have h := c6_media_ops_outside_active idleSession
  exact ⟨h.1 rfl, h.2.1 rfl, h.2.2 rfl rfl⟩

/-! ### C2: what the disconnect handler actually does -/

/-- C2, counterexample: on a BYE for a live session the callback emits
`call_ended` and then removes the session, and nothing else — the trace
differs from the spec-prescribed sequence (stop playback, stop recording,
finalize, remove, emit, enqueue): no stop/finalize/enqueue action occurs
and the emission precedes the removal. -/
theorem c2_disconnect_trace_counterexample :
    (onCallState oneCallState 1 ⟨true, "BYE", false⟩).2.1
      = [.emit_call_ended 1 (some 7), .removeFromRegistry 1] ∧
    (onCallState oneCallState 1 ⟨true, "BYE", false⟩).2.1 ≠ specDisconnectTrace 1 7 := by
  exact ⟨rfl, by decide⟩

/-- C2, amended: on a received BYE for a registered session with a
non-raising `call_ended` handler, the callback performs exactly two steps,
in this order: invoke the handler (passing the session, which carries the
recording-file path unchecked and unfinalized) and delete the session from
the registry.  It stops no playback or recording and enqueues no
transcription job — no transcription pipeline exists in this module. -/
theorem c2_disconnect_actions (st : LibState) (id : Nat) (s : CallSession)
    (h : HandlerSpec) (p : CallStateParm)
    (hl : dictLookup st.active_calls id = some s)
    (hh : st.handlers.call_ended = some h) (hr : h.raises = false)
    (hrx : p.isRxMsg = true) (hbye : p.method = "BYE") :
    onCallState st id p
      = (dictRemove st.active_calls id,
         [.emit_call_ended id s.recording_file, .removeFromRegistry id], false) := by
  simp [onCallState, hl, hh, hr, hrx, hbye]

/-- C2, witness: the single registered session disconnects, producing the
emit-then-remove trace and an empty registry. -/
theorem c2_disconnect_actions_witness :
    onCallState oneCallState 1 ⟨true, "BYE", false⟩
      = ([], [.emit_call_ended 1 (some 7), .removeFromRegistry 1], false) :=
  c2_disconnect_actions oneCallState 1 idleSession ⟨false⟩ ⟨true, "BYE", false⟩
    rfl rfl rfl rfl rfl

/-! ### C7: handler exceptions at the dispatcher boundary -/

/-- C7, counterexample: with a raising `call_ended` handler, the exception
escapes the `onCallState` callback into the stack (flag `true`) and the
session is still registered afterwards — cleanup did not proceed. -/
theorem c7_handler_exception_counterexample :
    (onCallState oneCallRaisingState 1 ⟨true, "BYE", false⟩).2.2 = true ∧
    dictLookup (onCallState oneCallRaisingState 1 ⟨true, "BYE", false⟩).1 1
      = some idleSession := by
  exact ⟨rfl, rfl⟩

/-- C7, amended: there is no try/except at the dispatcher boundary — a
raising `call_ended` handler propagates its exception out of the callback,
and the registry deletion that follows the handler call is skipped, so the
session survives in `active_calls`. -/
theorem c7_raising_handler_skips_cleanup (st : LibState) (id : Nat) (s : CallSession)
    (h : HandlerSpec) (p : CallStateParm)
    (hl : dictLookup st.active_calls id = some s)
    (hh : st.handlers.call_ended = some h) (hr : h.raises = true)
    (hrx : p.isRxMsg = true) (hbye : p.method = "BYE") :
    onCallState st id p
      = (st.active_calls, [.emit_call_ended id s.recording_file], true) ∧
    dictLookup (onCallState st id p).1 id = some s := by
  have hmain : onCallState st id p
      = (st.active_calls, [.emit_call_ended id s.recording_file], true) := by
    simp [onCallState, hl, hh, hr, hrx, hbye]
  exact ⟨hmain, by rw [hmain]; exact hl⟩

/-- C7, witness at the concrete raising-handler state. -/
theorem c7_raising_handler_skips_cleanup_witness :
    onCallState oneCallRaisingState 1 ⟨true, "BYE", false⟩
      = ([(1, idleSession)], [.emit_call_ended 1 (some 7)], true) ∧
    dictLookup (onCallState oneCallRaisingState 1 ⟨true, "BYE", false⟩).1 1
      = some idleSession :=
  c7_raising_handler_skips_cleanup oneCallRaisingState 1 idleSession ⟨true⟩
    ⟨true, "BYE", false⟩ rfl rfl rfl rfl rfl

/-! ### C8/C9: phone-number normalization -/

theorem reSubNonDigit_pos (rest : List Char) : ∀ i : Nat,
    reSubNonDigit (i + 1) rest = rest.filter Char.isDigit := by
  induction rest with
  | nil => intro i; rfl
  | cons c cs ih =>
    intro i
    have hz : ((i + 1) == 0) = false := by simp
    cases hd : c.isDigit <;> simp [reSubNonDigit, List.filter, hz, hd, ih]

theorem format_starts_with_sip (n r : List Char) :
    pyStartsWith (_format_phone_number n r) sipScheme = true := by
  simp only [pyStartsWith, _format_phone_number, decide_eq_true_eq]
  rw [List.append_assoc, List.append_assoc,
    List.take_append_of_le_length (by simp [sipScheme])]
  simp

/-- C8, counterexample: the code derives the "domain" as the text after the
last `@` and before the first `:` of the registrar.  For the module's own
default registrar `"sip:provider.example.com"` — whose host component is
`provider.example.com` — this yields the scheme `"sip"` instead of the
host, so normalizing `"(555) 123-4567"` produces
`"sip:5551234567@sip"`, not the claimed
`"sip:5551234567@provider.example.com"`. -/
theorem c8_domain_derivation_counterexample :
    _format_phone_number ("(555) 123-4567".data) ("sip:provider.example.com".data)
      = "sip:5551234567@sip".data ∧
    ("sip:5551234567@sip".data : List Char) ≠ "sip:5551234567@provider.example.com".data := by
  exact ⟨rfl, by decide⟩

/-- C8, amended: the normalizer keeps the digits of the input plus a single
leading `+` (proved against the positional regex embedding), and appends
`@` followed by the text of the registrar after its last `@` and before the
first `:` of that remainder — which equals the host-without-port only when
the registrar carries no bare scheme prefix; with registrar
`"provider.example.com"` the spec's example holds. -/
theorem c8_format_phone_number (number registrar : List Char) :
    _format_phone_number number registrar
      = sipScheme ++ cleanNumber number ++ ['@']
        ++ beforeFirstColon (afterLastAt registrar) ∧
    (∀ c rest, cleanNumber (c :: rest)
      = (if c = '+' ∨ c.isDigit = true then [c] else []) ++ rest.filter Char.isDigit) ∧
    _format_phone_number ("(555) 123-4567".data) ("provider.example.com".data)
      = "sip:5551234567@provider.example.com".data := by
  refine ⟨rfl, ?_, rfl⟩
  intro c rest
  by_cases hp : c = '+'
  · subst hp
    simp [cleanNumber, reSubNonDigit, reSubNonDigit_pos]
  · have hbeq : (c == '+') = false := by simpa using hp
    cases hd : c.isDigit <;>
      simp [cleanNumber, reSubNonDigit, reSubNonDigit_pos, hp, hd, hbeq]

/-- C9: an input already carrying the `sip:` scheme is dialled/messaged
unchanged by `place_call`/`send_message` (they share `call_target`), and
normalization is idempotent: normalizing the normalizer's output returns
it unchanged, for every input. -/
theorem c9_normalization_idempotent (n r : List Char) :
    (pyStartsWith n sipScheme = true → call_target n r = n) ∧
    call_target (call_target n r) r = call_target n r ∧
    (pyStartsWith n sipScheme = true → send_message n r "hi" = (n, "hi")) := by
  refine ⟨fun h => by simp [call_target, h], ?_, fun h => by simp [send_message, call_target, h]⟩
  by_cases h : pyStartsWith n sipScheme = true
  · simp [call_target, h]
  · have hn : pyStartsWith n sipScheme = false := by
      cases hv : pyStartsWith n sipScheme
      · rfl
      · exact absurd hv h
    have h1 : call_target n r = _format_phone_number n r := by
      simp [call_target, hn]
    rw [h1]
    simp [call_target, format_starts_with_sip]

/-- C9, witness: a canonical address passes through unchanged and
re-normalizing is the identity on it. -/
theorem c9_normalization_idempotent_witness :
    call_target ("sip:bob@host.example".data) ("provider.example.com".data)
      = "sip:bob@host.example".data ∧
    call_target (call_target ("(555) 123-4567".data) ("provider.example.com".data))
      ("provider.example.com".data)
      = call_target ("(555) 123-4567".data) ("provider.example.com".data) := by
  exact ⟨(c9_normalization_idempotent ("sip:bob@host.example".data)
      ("provider.example.com".data)).1 rfl,
    (c9_normalization_idempotent ("(555) 123-4567".data)
      ("provider.example.com".data)).2.1⟩

/-! ### C10: DTMF delivery requires a live session and a handler -/

/-- C10: `onCallDtmfDigit` appends the digit and navigates the menu only
when the session is found in the registry AND a `dtmf_received` handler is
registered; if either is missing the digit is dropped and the state is
unchanged.  When both are present the session is updated via
`handle_dtmf` and the handler is invoked after it. -/
theorem c10_dtmf_requires_session_and_handler (st : LibState) (id : Nat) (d : Char) :
    (st.handlers.dtmf_received = none →
      onCallDtmfDigit st id d = (st.active_calls, [], false)) ∧
    (dictLookup st.active_calls id = none →
      onCallDtmfDigit st id d = (st.active_calls, [], false)) ∧
    (∀ s h, dictLookup st.active_calls id = some s →
      st.handlers.dtmf_received = some h →
      onCallDtmfDigit st id d
        = (dictInsert st.active_calls id (s.handle_dtmf d).1,
           (s.handle_dtmf d).2.map Action.fired ++ [.emit_dtmf d], h.raises)) := by
  refine ⟨fun hn => ?_, fun hl => ?_, fun s h hl hh => ?_⟩
  · cases hl : dictLookup st.active_calls id <;> simp [onCallDtmfDigit, hl, hn]
  · simp [onCallDtmfDigit, hl]
  · simp [onCallDtmfDigit, hl, hh]

/-- C10, witness: no handler ⇒ digit dropped even with a live session; a
missing session ⇒ dropped; both present ⇒ buffer grows and the handler is
invoked after menu processing. -/
theorem c10_dtmf_requires_session_and_handler_witness :
    onCallDtmfDigit oneCallState 1 '9' = (oneCallState.active_calls, [], false) ∧
    onCallDtmfDigit dtmfState 2 '9' = (dtmfState.active_calls, [], false) ∧
    onCallDtmfDigit dtmfState 1 '9'
      = (dictInsert dtmfState.active_calls 1 (exSession.handle_dtmf '9').1,
         (exSession.handle_dtmf '9').2.map Action.fired ++ [.emit_dtmf '9'], false) := by
  refine ⟨(c10_dtmf_requires_session_and_handler oneCallState 1 '9').1 rfl,
    (c10_dtmf_requires_session_and_handler dtmfState 2 '9').2.1 rfl,
    (c10_dtmf_requires_session_and_handler dtmfState 1 '9').2.2 exSession ⟨false⟩ rfl rfl⟩

/-! ### C1: disconnect is idempotent, `call_ended` at most once -/

theorem run_cons_snd (st : LibState) (e : StackEvent) (es : List StackEvent) :
    (run st (e :: es)).2 = (stepEv st e).2.1 ++ (run (stepEv st e).1 es).2 := rfl

theorem run_ended_bound (id : Nat) : ∀ (evs : List StackEvent) (st : LibState),
    callEndedSafe st.handlers = true →
    ((run st evs).2.countP (isEndedFor id))
      ≤ (if (dictLookup st.active_calls id).isSome then 1 else 0)
        + evs.countP (isIncomingFor id) := by
  intro evs
  induction evs with
  | nil =>
    intro st _
    simp [run]
  | cons e es ih =>
    intro st hsafe
    rw [run_cons_snd, List.countP_append]
    have hih := ih (stepEv st e).1 hsafe
    cases e with
    | incoming cid ts =>
      have hac : (stepEv st (.incoming cid ts)).1.active_calls
          = dictInsert st.active_calls cid (CallSession.init {} ts) := by
        show (onIncomingCall st cid ts).1 = _
        unfold onIncomingCall
        cases st.handlers.incoming_call <;> rfl
      have htr : ((stepEv st (.incoming cid ts)).2.1).countP (isEndedFor id) = 0 := by
        show ((onIncomingCall st cid ts).2.1).countP (isEndedFor id) = 0
        unfold onIncomingCall
        cases st.handlers.incoming_call <;> simp [isEndedFor]
      rw [hac] at hih
      rw [htr]
      by_cases hcid : cid = id
      · subst hcid
        rw [dictLookup_insert_self] at hih
        simp [List.countP_cons, isIncomingFor] at hih ⊢
        omega
      · rw [dictLookup_insert_ne _ _ _ _ (fun hh => hcid hh.symm)] at hih
        have hbeq : (cid == id) = false := by simpa using hcid
        simp only [List.countP_cons, isIncomingFor, hbeq, if_false]
        omega
    | dtmf cid d =>
      have hcount : (StackEvent.dtmf cid d :: es).countP (isIncomingFor id)
          = es.countP (isIncomingFor id) := by
        simp [List.countP_cons, isIncomingFor]
      rw [hcount]
      cases hl : dictLookup st.active_calls cid with
      | none =>
        have hac : (stepEv st (.dtmf cid d)).1.active_calls = st.active_calls := by
          show (onCallDtmfDigit st cid d).1 = _
          simp [onCallDtmfDigit, hl]
        have htr : ((stepEv st (.dtmf cid d)).2.1).countP (isEndedFor id) = 0 := by
          show ((onCallDtmfDigit st cid d).2.1).countP (isEndedFor id) = 0
          simp [onCallDtmfDigit, hl]
        rw [hac] at hih
        rw [htr]
        omega
      | some s =>
        cases hh : st.handlers.dtmf_received with
        | none =>
          have hac : (stepEv st (.dtmf cid d)).1.active_calls = st.active_calls := by
            show (onCallDtmfDigit st cid d).1 = _
            simp [onCallDtmfDigit, hl, hh]
          have htr : ((stepEv st (.dtmf cid d)).2.1).countP (isEndedFor id) = 0 := by
            show ((onCallDtmfDigit st cid d).2.1).countP (isEndedFor id) = 0
            simp [onCallDtmfDigit, hl, hh]
          rw [hac] at hih
          rw [htr]
          omega
        | some h =>
          have hac : (stepEv st (.dtmf cid d)).1.active_calls
              = dictInsert st.active_calls cid (s.handle_dtmf d).1 := by
            show (onCallDtmfDigit st cid d).1 = _
            simp [onCallDtmfDigit, hl, hh]
          have htr : ((stepEv st (.dtmf cid d)).2.1).countP (isEndedFor id) = 0 := by
            show ((onCallDtmfDigit st cid d).2.1).countP (isEndedFor id) = 0
            simp only [onCallDtmfDigit, hl, hh]
            rw [List.countP_append, List.countP_eq_zero.mpr, List.countP_eq_zero.mpr]
            · intro a ha
              simp at ha
              subst ha
              simp [isEndedFor]
            · intro a ha
              simp at ha
              obtain ⟨b, _, hb⟩ := ha
              subst hb
              simp [isEndedFor]
          rw [hac] at hih
          rw [htr]
          by_cases hcid : cid = id
          · subst hcid
            rw [dictLookup_insert_self] at hih
            rw [hl]
            simp only [Option.isSome_some, if_true] at hih ⊢
            omega
          · rw [dictLookup_insert_ne _ _ _ _ (fun hh2 => hcid hh2.symm)] at hih
            omega
    | callState cid p =>
      have hcount : (StackEvent.callState cid p :: es).countP (isIncomingFor id)
          = es.countP (isIncomingFor id) := by
        simp [List.countP_cons, isIncomingFor]
      rw [hcount]
      cases hl : dictLookup st.active_calls cid with
      | none =>
        have hac : (stepEv st (.callState cid p)).1.active_calls = st.active_calls := by
          show (onCallState st cid p).1 = _
          simp [onCallState, hl]
        have htr : ((stepEv st (.callState cid p)).2.1).countP (isEndedFor id) = 0 := by
          show ((onCallState st cid p).2.1).countP (isEndedFor id) = 0
          simp [onCallState, hl]
        rw [hac] at hih
        rw [htr]
        omega
      | some s =>
        cases hrx : p.isRxMsg with
        | false =>
          have hac : (stepEv st (.callState cid p)).1.active_calls = st.active_calls := by
            show (onCallState st cid p).1 = _
            cases hcf : p.confirmed <;>
              cases hhc : st.handlers.call_connected <;>
                simp [onCallState, hl, hrx, hcf, hhc]
          have htr : ((stepEv st (.callState cid p)).2.1).countP (isEndedFor id) = 0 := by
            show ((onCallState st cid p).2.1).countP (isEndedFor id) = 0
            cases hcf : p.confirmed <;>
              cases hhc : st.handlers.call_connected <;>
                simp [onCallState, hl, hrx, hcf, hhc, isEndedFor]
          rw [hac] at hih
          rw [htr]
          omega
        | true =>
          by_cases hbye : p.method = "BYE"
          · cases hh : st.handlers.call_ended with
            | none =>
              have hac : (stepEv st (.callState cid p)).1.active_calls
                  = dictRemove st.active_calls cid := by
                show (onCallState st cid p).1 = _
                simp [onCallState, hl, hrx, hbye, hh]
              have htr : ((stepEv st (.callState cid p)).2.1).countP (isEndedFor id) = 0 := by
                show ((onCallState st cid p).2.1).countP (isEndedFor id) = 0
                simp [onCallState, hl, hrx, hbye, hh, isEndedFor]
              rw [hac] at hih
              rw [htr]
              by_cases hcid : cid = id
              · subst hcid
                rw [dictLookup_remove_self] at hih
                rw [hl]
                simp at hih ⊢
                omega
              · rw [dictLookup_remove_ne _ _ _ (fun hh2 => hcid hh2.symm)] at hih
                omega
            | some h =>
              have hr : h.raises = false := by
                unfold callEndedSafe at hsafe
                rw [hh] at hsafe
                simpa using hsafe
              have hac : (stepEv st (.callState cid p)).1.active_calls
                  = dictRemove st.active_calls cid := by
                show (onCallState st cid p).1 = _
                simp [onCallState, hl, hrx, hbye, hh, hr]
              have htr : ((stepEv st (.callState cid p)).2.1).countP (isEndedFor id)
                  = if cid == id then 1 else 0 := by
                show ((onCallState st cid p).2.1).countP (isEndedFor id) = _
                simp only [onCallState, hl, hrx, hbye, hh, hr]
                by_cases hcid : cid = id <;>
                  simp [List.countP_cons, isEndedFor, hcid]
              rw [hac] at hih
              rw [htr]
              by_cases hcid : cid = id
              · subst hcid
                rw [dictLookup_remove_self] at hih
                rw [hl]
                simp at hih ⊢
                omega
              · rw [dictLookup_remove_ne _ _ _ (fun hh2 => hcid hh2.symm)] at hih
                have hbeq : (cid == id) = false := by simpa using hcid
                simp [hbeq]
                omega
          · have hac : (stepEv st (.callState cid p)).1.active_calls = st.active_calls := by
              show (onCallState st cid p).1 = _
              simp [onCallState, hl, hrx, hbye]
            have htr : ((stepEv st (.callState cid p)).2.1).countP (isEndedFor id) = 0 := by
              show ((onCallState st cid p).2.1).countP (isEndedFor id) = 0
              simp [onCallState, hl, hrx, hbye]
            rw [hac] at hih
            rw [htr]
            omega

/-- C1, counterexample: over the sequence `incoming 1; BYE 1; BYE 1` —
which registers identifier 1 exactly once — a raising `call_ended` handler
makes the code emit `call_ended` twice for that one identifier: the first
BYE invokes the handler before the registry deletion, the raise skips the
deletion, so after the first BYE the lookup is NOT absent and the second
BYE finds the session and invokes the handler again.  This refutes the
claim's "at most once per call identifier over any event sequence" and its
premise that a processed disconnect leaves the lookup absent. -/
theorem c1_duplicate_bye_counterexample :
    ((run emptyRaisingState [.incoming 1 5, .callState 1 ⟨true, "BYE", false⟩,
        .callState 1 ⟨true, "BYE", false⟩]).2.countP (isEndedFor 1)) = 2 ∧
    (([.incoming 1 5, .callState 1 ⟨true, "BYE", false⟩,
        .callState 1 ⟨true, "BYE", false⟩] : List StackEvent).countP (isIncomingFor 1)) = 1 ∧
    dictLookup (run emptyRaisingState [.incoming 1 5,
        .callState 1 ⟨true, "BYE", false⟩]).1.active_calls 1
      = some (CallSession.init {} 5) := by
  exact ⟨rfl, rfl, rfl⟩

/-- C1, amended: (a) a disconnect (BYE) event for an identifier whose
registry lookup is absent is a no-op: the registry is untouched, no
actions are performed, no `call_ended` is emitted and nothing is raised —
but a previously processed disconnect only guarantees the lookup is absent
when its `call_ended` handler did not raise, since a raise skips the
registry deletion; (b) `call_ended` is emitted at most once per identifier
over the event sequences that register the identifier at most once
(identifiers are only reused by the stack for new calls) and whose
`call_ended` handler, if any, does not raise. -/
theorem c1_disconnect_idempotent :
    (∀ (st : LibState) (id : Nat) (p : CallStateParm),
      dictLookup st.active_calls id = none →
      onCallState st id p = (st.active_calls, [], false)) ∧
    (∀ (st : LibState) (id : Nat) (evs : List StackEvent),
      callEndedSafe st.handlers = true →
      dictLookup st.active_calls id = none →
      evs.countP (isIncomingFor id) ≤ 1 →
      ((run st evs).2.countP (isEndedFor id)) ≤ 1) := by
  constructor
  · intro st id p hl
    simp [onCallState, hl]
  · intro st id evs hsafe hl hcount
    have hb := run_ended_bound id evs st hsafe
    rw [hl] at hb
    simp at hb
    omega

/-- C1, witness: after `incoming 1; BYE 1; BYE 1` the `call_ended` count
for id 1 is at most one, and a BYE on the empty registry is a no-op. -/
theorem c1_disconnect_idempotent_witness :
    onCallState emptyState 1 ⟨true, "BYE", false⟩ = (emptyState.active_calls, [], false) ∧
    ((run emptyState [.incoming 1 5, .callState 1 ⟨true, "BYE", false⟩,
        .callState 1 ⟨true, "BYE", false⟩]).2.countP (isEndedFor 1)) ≤ 1 :=
  ⟨c1_disconnect_idempotent.1 emptyState 1 ⟨true, "BYE", false⟩ rfl,
    c1_disconnect_idempotent.2 emptyState 1
      [.incoming 1 5, .callState 1 ⟨true, "BYE", false⟩, .callState 1 ⟨true, "BYE", false⟩]
      rfl rfl (by decide)⟩

end Voip
